import Mathlib

/-!
# SmartClip video processing pipelines: a shallow embedding

This file embeds the two client-side re-encoding pipelines of the
repository (`compressVideo` and `cutVideo` in the video-processing
utility module) as executable Lean definitions and proves the spec
claims about them.

Times and durations are rationals (JS numbers used for media times),
percentages are integers, byte chunks are lists of naturals.  The
event-driven handler code is embedded as one deterministic handler
function per event on an explicit run-state record, together with a
step function over an event alphabet; the browser environment chooses
the event sequence, subject to a validity predicate (animation frames
fire only while scheduled, the playback clock is monotone, the
encoder finalize event fires only after a stop request, and so on).
-/

namespace SmartClip

attribute [local semireducible] Rat.add Rat.mul Rat.sub Rat.inv

/-- JavaScript `Math.round`: round half toward positive infinity. -/
def jsRound (x : ℚ) : ℤ := (x + 1/2).floor

/-- `TARGET_HEIGHT` in `compressVideo`: fixed output height policy. -/
def TARGET_HEIGHT : ℕ := 360

/-- `MAX_HEIGHT` in `cutVideo`: cap on output height. -/
def MAX_HEIGHT : ℕ := 720

/-- Capture-surface sizing in `compressVideo.onloadedmetadata`:
`TARGET_WIDTH = Math.round(TARGET_HEIGHT * (videoWidth / videoHeight))`,
height fixed at `TARGET_HEIGHT`. -/
def compressDims (videoWidth videoHeight : ℕ) : ℤ × ℤ :=
  (jsRound ((TARGET_HEIGHT : ℚ) * ((videoWidth : ℚ) / (videoHeight : ℚ))),
   (TARGET_HEIGHT : ℤ))

/-- Capture-surface sizing in `cutVideo.startProcessing`: source dimensions
pass through unless `height > MAX_HEIGHT`, in which case
`height := MAX_HEIGHT` and `width := Math.round(height * (width / height))`
computed from the source aspect. -/
def cutDims (videoWidth videoHeight : ℕ) : ℤ × ℤ :=
  if MAX_HEIGHT < videoHeight then
    (jsRound ((MAX_HEIGHT : ℚ) * ((videoWidth : ℚ) / (videoHeight : ℚ))),
     (MAX_HEIGHT : ℤ))
  else
    ((videoWidth : ℤ), (videoHeight : ℤ))

/-- A source file handed to a pipeline; only its byte size drives control
flow, identity of the value models byte-for-byte identity of the asset. -/
structure FileAsset where
  size : ℕ
deriving DecidableEq

/-- Errors a pipeline can reject with.  `loadError` is the rejection of
`video.onerror` ("Video load failed"), `surfaceError` the rejection when
`canvas.getContext` yields null ("Canvas context failed"), `notSupported`
the exception thrown by recorder construction for an unsupported
configuration, `playRefused` an autoplay rejection from `video.play()`,
and `rangeError` the error the spec claims for invalid ranges (the code
never produces it). -/
inductive PipeError
  | loadError
  | surfaceError
  | notSupported
  | playRefused
  | rangeError
deriving DecidableEq

/-- What the synchronous prologue of a pipeline call has done before any
asynchronous event fires: progress callbacks already invoked, an immediate
resolution or rejection if any, and whether the video element and the
temporary object URL were allocated. -/
structure InitOutcome where
  progressCalls : List ℤ
  result : Option FileAsset
  error : Option PipeError
  videoAllocated : Bool
  urlAllocated : Bool
deriving DecidableEq

/-- Synchronous prologue of `compressVideo`: if `file.size < 20 * 1024 * 1024`
it reports 100, resolves with the original file and returns before creating
the video element or object URL; otherwise it allocates both and defers to
the event handlers. -/
def compressInit (file : FileAsset) : InitOutcome :=
  if file.size < 20 * 1024 * 1024 then
    { progressCalls := [100]
      result := some file
      error := none
      videoAllocated := false
      urlAllocated := false }
  else
    { progressCalls := []
      result := none
      error := none
      videoAllocated := true
      urlAllocated := true }

/-- Synchronous prologue of `cutVideo`: it unconditionally creates the video
element and the temporary object URL and installs handlers; the range
parameters are not examined and no validation error is ever raised. -/
def cutInit (file : FileAsset) (startTime endTime : ℚ) : InitOutcome :=
  { progressCalls := []
    result := none
    error := none
    videoAllocated := true
    urlAllocated := true }

/-- MIME string tried first by `cutVideo`. -/
def VP9_MIME : String := "video/webm;codecs=vp9"

/-- MIME string used by the `cutVideo` fallback construction. -/
def WEBM_MIME : String := "video/webm"

/-- The single MIME string used by `compressVideo`. -/
def VP8_MIME : String := "video/webm;codecs=vp8"

/-- A successfully constructed recorder configuration. -/
structure RecorderCfg where
  mimeType : String
  videoBitsPerSecond : ℕ
deriving DecidableEq

/-- Encoder construction in `cutVideo.startProcessing`: try a VP9
configuration; if construction throws, construct a generic `video/webm`
configuration inside the catch block.  A failure of that second
construction is not caught anywhere, so it surfaces as the platform
`notSupported` exception. -/
def cutCreateRecorder (supports : String → Bool) : Except PipeError RecorderCfg :=
  if supports VP9_MIME then
    Except.ok { mimeType := VP9_MIME, videoBitsPerSecond := 2500000 }
  else if supports WEBM_MIME then
    Except.ok { mimeType := WEBM_MIME, videoBitsPerSecond := 2500000 }
  else
    Except.error PipeError.notSupported

/-- Encoder construction in `compressVideo.onloadedmetadata`: a single
`new MediaRecorder` call with the VP8 configuration and no surrounding
try/catch, hence no fallback of any kind. -/
def compressCreateRecorder (supports : String → Bool) : Except PipeError RecorderCfg :=
  if supports VP8_MIME then
    Except.ok { mimeType := VP8_MIME, videoBitsPerSecond := 600000 }
  else
    Except.error PipeError.notSupported

/-- `MediaRecorder.state` as observed by the handlers: `recording` after
`start()`, `inactive` after `stop()` has been invoked. -/
inductive RecSt
  | recording
  | inactive
deriving DecidableEq

/-- Parameters of a `cutVideo` run. -/
structure CutParams where
  startTime : ℚ
  endTime : ℚ
deriving DecidableEq

/-- Run state of a `cutVideo` invocation once the recorder has been started
and playback has begun (the first `drawFrame` call is modelled as the first
tick).  `raf` records whether a `requestAnimationFrame` callback is
pending, `stopRequested` that `mediaRecorder.stop()` has been invoked and
its `onstop` event has not fired yet, `stops` the number of
`mediaRecorder.stop()` invocations, `sampled` the playback times at which
`ctx.drawImage` sampled a frame, and `progressLog` the arguments of the
`onProgress` calls in order. -/
structure CutState where
  currentTime : ℚ
  paused : Bool
  ended : Bool
  recState : RecSt
  stopRequested : Bool
  chunks : List (List ℕ)
  urlRevoked : Bool
  result : Option (List ℕ)
  err : Option PipeError
  progressLog : List ℤ
  raf : Bool
  sampled : List ℚ
  stops : ℕ
deriving DecidableEq

/-- The percentage computed by a normal `cutVideo.drawFrame` tick:
`Math.min(99, Math.round(((currentTime - startTime) / (endTime - startTime)) * 100))`. -/
def cutPercent (p : CutParams) (t : ℚ) : ℤ :=
  min 99 (jsRound ((t - p.startTime) / (p.endTime - p.startTime) * 100))

/-- `cutVideo.drawFrame`, the per-tick handler, with the playback clock
advanced to `t`: if the driver is paused or ended or the clock has reached
`endTime`, stop the recorder when (and only when) it is in the recording
state, report 100 in that case, pause the driver and do not reschedule;
otherwise sample a frame, report the clamped percentage and reschedule. -/
def cutTick (p : CutParams) (s : CutState) (t : ℚ) : CutState :=
  let s1 := { s with currentTime := t }
  if s1.paused ∨ s1.ended ∨ p.endTime ≤ t then
    let s2 :=
      if s1.recState = RecSt.recording then
        { s1 with recState := RecSt.inactive
                  stopRequested := true
                  stops := s1.stops + 1
                  progressLog := s1.progressLog ++ [100] }
      else s1
    { s2 with paused := true, raf := false }
  else
    { s1 with sampled := s1.sampled ++ [t]
              progressLog := s1.progressLog ++ [cutPercent p t]
              raf := true }

/-- `cutVideo`'s `ondataavailable`: append the chunk when its size is
positive, discard it otherwise. -/
def cutData (s : CutState) (c : List ℕ) : CutState :=
  if 0 < c.length then { s with chunks := s.chunks ++ [c] } else s

/-- `cutVideo`'s `onstop`: build the blob as the concatenation of the
accumulated chunks, revoke the temporary URL and resolve. -/
def cutStopFired (s : CutState) : CutState :=
  { s with stopRequested := false
           urlRevoked := true
           result := some s.chunks.flatten }

/-- The platform marking playback as ended at end of media. -/
def cutEnded (s : CutState) : CutState :=
  { s with ended := true }

/-- The `catch` attached to `video.play()` in `cutVideo`: it rejects with
the playback error and does nothing else — no URL revocation, no recorder
stop, no pause. -/
def cutPlayCatch (s : CutState) (e : PipeError) : CutState :=
  { s with err := some e }

/-- `cutVideo`'s `video.onerror`: revoke the URL and reject. -/
def cutLoadFail (s : CutState) : CutState :=
  { s with urlRevoked := true, err := some PipeError.loadError }

/-- `cutVideo`'s null-context branch: revoke the URL and reject. -/
def cutCtxFail (s : CutState) : CutState :=
  { s with urlRevoked := true, err := some PipeError.surfaceError }

/-- Events the environment can deliver to a running `cutVideo` invocation. -/
inductive CutEvent
  | tick (t : ℚ)
  | data (c : List ℕ)
  | stopFired
  | endedEvt
deriving DecidableEq

/-- Dispatch of one event to its handler. -/
def cutStep (p : CutParams) (s : CutState) : CutEvent → CutState
  | CutEvent.tick t => cutTick p s t
  | CutEvent.data c => cutData s c
  | CutEvent.stopFired => cutStopFired s
  | CutEvent.endedEvt => cutEnded s

/-- Environment validity of one event: an animation-frame tick fires only
while one is scheduled and the playback clock is monotone; the encoder
emits data only before the promise has settled; `onstop` fires only after
a stop request. -/
def cutEventOk (s : CutState) : CutEvent → Bool
  | CutEvent.tick t => s.raf && decide (s.currentTime ≤ t)
  | CutEvent.data _ => s.result.isNone
  | CutEvent.stopFired => s.stopRequested
  | CutEvent.endedEvt => true

/-- Run a sequence of events from a state. -/
def cutRun (p : CutParams) (s : CutState) : List CutEvent → CutState
  | [] => s
  | e :: es => cutRun p (cutStep p s e) es

/-- A sequence of events is valid from a state when each event is valid in
the state it is delivered in. -/
def cutValid (p : CutParams) (s : CutState) : List CutEvent → Bool
  | [] => true
  | e :: es => cutEventOk s e && cutValid p (cutStep p s e) es

/-- The state right after `mediaRecorder.start()`, `video.play()` success
and the first scheduling of `drawFrame`: the clock sits at the requested
start, nothing recorded yet. -/
def cutInitState (p : CutParams) : CutState :=
  { currentTime := p.startTime
    paused := false
    ended := false
    recState := RecSt.recording
    stopRequested := false
    chunks := []
    urlRevoked := false
    result := none
    err := none
    progressLog := []
    raf := true
    sampled := []
    stops := 0 }

/-- The chunks offered by the encoder along an event sequence, in emission
order (before the size filter applied by the handler). -/
def cutEmitted : List CutEvent → List (List ℕ)
  | [] => []
  | CutEvent.data c :: es => c :: cutEmitted es
  | _ :: es => cutEmitted es

/-- Whether an event sequence contains the encoder finalize event. -/
def cutHasStopFired : List CutEvent → Bool
  | [] => false
  | CutEvent.stopFired :: _ => true
  | _ :: es => cutHasStopFired es

/-- Run state of a `compressVideo` invocation past the size check, once the
recorder has started and playback has begun.  `timeoutPending` records
that the `onended` handler has scheduled its 100 ms timeout and the
timeout has not fired yet. -/
structure CompressState where
  currentTime : ℚ
  paused : Bool
  ended : Bool
  recState : RecSt
  stopRequested : Bool
  timeoutPending : Bool
  chunks : List (List ℕ)
  urlRevoked : Bool
  result : Option (List ℕ)
  err : Option PipeError
  progressLog : List ℤ
  raf : Bool
  sampled : List ℚ
  stops : ℕ
deriving DecidableEq

/-- The percentage computed by a normal `compressVideo.drawFrame` tick:
`Math.min(99, Math.round((currentTime / duration) * 100))`. -/
def compressPercent (duration t : ℚ) : ℤ :=
  min 99 (jsRound (t / duration * 100))

/-- `compressVideo.drawFrame` with the playback clock advanced to `t`:
return without rescheduling when paused or ended, otherwise sample,
report the clamped percentage and reschedule. -/
def compressTick (duration : ℚ) (s : CompressState) (t : ℚ) : CompressState :=
  let s1 := { s with currentTime := t }
  if s1.paused ∨ s1.ended then
    { s1 with raf := false }
  else
    { s1 with sampled := s1.sampled ++ [t]
              progressLog := s1.progressLog ++ [compressPercent duration t]
              raf := true }

/-- `compressVideo`'s `ondataavailable`: append the chunk when its size is
positive, discard it otherwise. -/
def compressData (s : CompressState) (c : List ℕ) : CompressState :=
  if 0 < c.length then { s with chunks := s.chunks ++ [c] } else s

/-- `compressVideo`'s `onstop`: build the blob as the concatenation of the
accumulated chunks, revoke the temporary URL and resolve. -/
def compressStopFired (s : CompressState) : CompressState :=
  { s with stopRequested := false
           urlRevoked := true
           result := some s.chunks.flatten }

/-- `compressVideo`'s `video.onended`: mark playback ended and schedule the
100 ms flush timeout. -/
def compressOnEnded (s : CompressState) : CompressState :=
  { s with ended := true, timeoutPending := true }

/-- The body of the timeout scheduled by `compressVideo`'s `onended`:
invoke `mediaRecorder.stop()` and report 100 — unconditionally, with no
guard on the recorder state. -/
def compressTimeout (s : CompressState) : CompressState :=
  let s1 :=
    if s.recState = RecSt.recording then
      { s with recState := RecSt.inactive, stopRequested := true }
    else s
  { s1 with timeoutPending := false
            stops := s1.stops + 1
            progressLog := s1.progressLog ++ [100] }

/-- The `catch` attached to `video.play()` in `compressVideo`: log and
reject, nothing else — no URL revocation, no recorder stop. -/
def compressPlayCatch (s : CompressState) (e : PipeError) : CompressState :=
  { s with err := some e }

/-- `compressVideo`'s `video.onerror`: revoke the URL and reject. -/
def compressLoadFail (s : CompressState) : CompressState :=
  { s with urlRevoked := true, err := some PipeError.loadError }

/-- `compressVideo`'s null-context branch: revoke the URL and reject. -/
def compressCtxFail (s : CompressState) : CompressState :=
  { s with urlRevoked := true, err := some PipeError.surfaceError }

/-- Events the environment can deliver to a running `compressVideo`
invocation. -/
inductive CompressEvent
  | tick (t : ℚ)
  | data (c : List ℕ)
  | endedEvt
  | timeoutFired
  | stopFired
deriving DecidableEq

/-- Dispatch of one event to its handler. -/
def compressStep (d : ℚ) (s : CompressState) : CompressEvent → CompressState
  | CompressEvent.tick t => compressTick d s t
  | CompressEvent.data c => compressData s c
  | CompressEvent.endedEvt => compressOnEnded s
  | CompressEvent.timeoutFired => compressTimeout s
  | CompressEvent.stopFired => compressStopFired s

/-- Environment validity of one event for `compressVideo`: ticks only while
scheduled with a monotone clock, data only before settlement, end of media
fires at most once, the flush timeout only while scheduled, `onstop` only
after a stop request. -/
def compressEventOk (s : CompressState) : CompressEvent → Bool
  | CompressEvent.tick t => s.raf && decide (s.currentTime ≤ t)
  | CompressEvent.data _ => s.result.isNone
  | CompressEvent.endedEvt => !s.ended
  | CompressEvent.timeoutFired => s.timeoutPending
  | CompressEvent.stopFired => s.stopRequested

/-- Run a sequence of events from a state. -/
def compressRun (d : ℚ) (s : CompressState) : List CompressEvent → CompressState
  | [] => s
  | e :: es => compressRun d (compressStep d s e) es

/-- Validity of an event sequence from a state. -/
def compressValid (d : ℚ) (s : CompressState) : List CompressEvent → Bool
  | [] => true
  | e :: es => compressEventOk s e && compressValid d (compressStep d s e) es

/-- The state right after `mediaRecorder.start()` and `video.play()`
success in `compressVideo`: the clock at 0, nothing recorded yet. -/
def compressInitState : CompressState :=
  { currentTime := 0
    paused := false
    ended := false
    recState := RecSt.recording
    stopRequested := false
    timeoutPending := false
    chunks := []
    urlRevoked := false
    result := none
    err := none
    progressLog := []
    raf := true
    sampled := []
    stops := 0 }

/-- The chunks offered by the encoder along an event sequence, in emission
order (before the size filter applied by the handler). -/
def compressEmitted : List CompressEvent → List (List ℕ)
  | [] => []
  | CompressEvent.data c :: es => c :: compressEmitted es
  | _ :: es => compressEmitted es

/-- Whether an event sequence contains the encoder finalize event. -/
def compressHasStopFired : List CompressEvent → Bool
  | [] => false
  | CompressEvent.stopFired :: _ => true
  | _ :: es => compressHasStopFired es

/-- Invariant of a `cutVideo` run, established at `cutInitState` and
preserved by every valid event. -/
structure CutInv (p : CutParams) (s : CutState) : Prop where
  time_lb : p.startTime ≤ s.currentTime
  raf_rec : s.raf = true → s.recState = RecSt.recording
  raf_unpaused : s.raf = true → s.paused = false
  rec_stops : s.recState = RecSt.recording ↔ s.stops = 0
  stops_le : s.stops ≤ 1
  req_stops : s.stopRequested = true → s.stops = 1
  count100 : s.progressLog.count 100 = s.stops
  log_shape : ∀ x ∈ s.progressLog, x = 100 ∨ (0 ≤ x ∧ x ≤ 99)
  log_chain : s.progressLog.Chain' (· ≤ ·)
  log_cur : s.stops = 0 → ∀ x ∈ s.progressLog, x ≤ cutPercent p s.currentTime
  last100 : s.stops = 1 → s.progressLog.getLast? = some 100
  frozen : s.stops = 1 → s.raf = false ∧ s.paused = true
  sampled_lt : ∀ t ∈ s.sampled, t < p.endTime
  result_spec : ∀ a, s.result = some a →
    a = s.chunks.flatten ∧ s.progressLog.getLast? = some 100 ∧
    s.urlRevoked = true ∧ s.stops = 1
  result_req : s.result.isSome = true → s.stopRequested = false

/-- Invariant of a `compressVideo` run, established at `compressInitState`
and preserved by every valid event. -/
structure CompressInv (s : CompressState) : Prop where
  time_lb : 0 ≤ s.currentTime
  ended_quiet : s.ended = false → s.timeoutPending = false ∧ s.stops = 0
  pend_ended : s.timeoutPending = true → s.ended = true
  pend_stops : s.timeoutPending = true → s.stops = 0
  rec_stops : s.recState = RecSt.recording ↔ s.stops = 0
  stops_le : s.stops ≤ 1
  req_stops : s.stopRequested = true → s.stops = 1
  count100 : s.progressLog.count 100 = s.stops
  log_shape : ∀ x ∈ s.progressLog, x = 100 ∨ (0 ≤ x ∧ x ≤ 99)
  result_spec : ∀ a, s.result = some a →
    a = s.chunks.flatten ∧ s.urlRevoked = true ∧ s.stops = 1
  result_req : s.result.isSome = true → s.stopRequested = false

/-! ## Arithmetic helper lemmas -/

theorem jsRound_eq_floor (x : ℚ) : jsRound x = ⌊x + 1/2⌋ := rfl

theorem jsRound_mono {x y : ℚ} (h : x ≤ y) : jsRound x ≤ jsRound y := by
  rw [jsRound_eq_floor, jsRound_eq_floor]
  exact Int.floor_mono (by linarith)

theorem jsRound_nonneg {x : ℚ} (h : 0 ≤ x) : 0 ≤ jsRound x := by
  rw [jsRound_eq_floor]
  exact Int.le_floor.mpr (by push_cast; linarith)

theorem cutPercent_le_99 (p : CutParams) (t : ℚ) : cutPercent p t ≤ 99 :=
  min_le_left _ _

theorem cutPercent_ne_100 (p : CutParams) (t : ℚ) : cutPercent p t ≠ 100 := by
  have := cutPercent_le_99 p t
  omega

theorem cutPercent_nonneg {p : CutParams} (hlt : p.startTime < p.endTime)
    {t : ℚ} (ht : p.startTime ≤ t) : 0 ≤ cutPercent p t := by
  refine le_min (by norm_num) (jsRound_nonneg ?_)
  have hd : (0:ℚ) < p.endTime - p.startTime := sub_pos.mpr hlt
  have hn : (0:ℚ) ≤ t - p.startTime := sub_nonneg.mpr ht
  positivity

theorem cutPercent_mono {p : CutParams} (hlt : p.startTime < p.endTime)
    {t u : ℚ} (h : t ≤ u) : cutPercent p t ≤ cutPercent p u := by
  refine min_le_min le_rfl (jsRound_mono ?_)
  have hd : (0:ℚ) < p.endTime - p.startTime := sub_pos.mpr hlt
  gcongr

theorem compressPercent_le_99 (d t : ℚ) : compressPercent d t ≤ 99 :=
  min_le_left _ _

theorem compressPercent_ne_100 (d t : ℚ) : compressPercent d t ≠ 100 := by
  have := compressPercent_le_99 d t
  omega

theorem compressPercent_nonneg {d t : ℚ} (hd : 0 < d) (ht : 0 ≤ t) :
    0 ≤ compressPercent d t := by
  refine le_min (by norm_num) (jsRound_nonneg ?_)
  positivity

/-! ## List helper lemmas -/

theorem chain'_append_one {l : List ℤ} {y : ℤ}
    (hc : l.Chain' (· ≤ ·)) (hle : ∀ x ∈ l, x ≤ y) :
    (l ++ [y]).Chain' (· ≤ ·) := by
  rw [List.chain'_append]
  refine ⟨hc, List.chain'_singleton y, ?_⟩
  intro x hx z hz
  simp only [List.head?_cons, Option.mem_def, Option.some.injEq] at hz
  subst hz
  exact hle x (List.mem_of_mem_getLast? hx)

theorem count_append_one_self (l : List ℤ) (y : ℤ) :
    (l ++ [y]).count y = l.count y + 1 := by
  simp [List.count_append]

theorem count_append_one_ne {l : List ℤ} {y c : ℤ} (h : y ≠ c) :
    (l ++ [y]).count c = l.count c := by
  simp [List.count_append, List.count_singleton, h]

/-! ## Handler shape lemmas -/

theorem cutTick_terminal_rec {p : CutParams} {s : CutState} {t : ℚ}
    (h : s.paused = true ∨ s.ended = true ∨ p.endTime ≤ t)
    (hrec : s.recState = RecSt.recording) :
    cutTick p s t =
      { s with currentTime := t, recState := RecSt.inactive,
               stopRequested := true, stops := s.stops + 1,
               progressLog := s.progressLog ++ [100],
               paused := true, raf := false } := by
  simp only [cutTick]
  rw [if_pos, if_pos hrec]
  simpa using h

theorem cutTick_terminal_idle {p : CutParams} {s : CutState} {t : ℚ}
    (h : s.paused = true ∨ s.ended = true ∨ p.endTime ≤ t)
    (hrec : s.recState ≠ RecSt.recording) :
    cutTick p s t = { s with currentTime := t, paused := true, raf := false } := by
  simp only [cutTick]
  rw [if_pos, if_neg hrec]
  simpa using h

theorem cutTick_normal {p : CutParams} {s : CutState} {t : ℚ}
    (hp : s.paused = false) (he : s.ended = false) (ht : ¬ p.endTime ≤ t) :
    cutTick p s t =
      { s with currentTime := t, sampled := s.sampled ++ [t],
               progressLog := s.progressLog ++ [cutPercent p t],
               raf := true } := by
  simp only [cutTick]
  rw [if_neg]
  simp [hp, he, ht]

theorem compressTick_terminal {d : ℚ} {s : CompressState} {t : ℚ}
    (h : s.paused = true ∨ s.ended = true) :
    compressTick d s t = { s with currentTime := t, raf := false } := by
  simp only [compressTick]
  rw [if_pos]
  simpa using h

theorem compressTick_normal {d : ℚ} {s : CompressState} {t : ℚ}
    (hp : s.paused = false) (he : s.ended = false) :
    compressTick d s t =
      { s with currentTime := t, sampled := s.sampled ++ [t],
               progressLog := s.progressLog ++ [compressPercent d t],
               raf := true } := by
  simp only [compressTick]
  rw [if_neg]
  simp [hp, he]

theorem compressTimeout_rec {s : CompressState}
    (hrec : s.recState = RecSt.recording) :
    compressTimeout s =
      { s with recState := RecSt.inactive, stopRequested := true,
               timeoutPending := false, stops := s.stops + 1,
               progressLog := s.progressLog ++ [100] } := by
  simp only [compressTimeout]
  rw [if_pos hrec]

theorem compressTimeout_idle {s : CompressState}
    (hrec : s.recState ≠ RecSt.recording) :
    compressTimeout s =
      { s with timeoutPending := false, stops := s.stops + 1,
               progressLog := s.progressLog ++ [100] } := by
  simp only [compressTimeout]
  rw [if_neg hrec]

/-! ## Invariant of a `cutVideo` run -/

theorem cutInv_init (p : CutParams) : CutInv p (cutInitState p) := by
  constructor <;> simp [cutInitState]

theorem cutInv_tick {p : CutParams} (hlt : p.startTime < p.endTime)
    {s : CutState} (hin : CutInv p s) {t : ℚ}
    (hraf : s.raf = true) (hmono : s.currentTime ≤ t) :
    CutInv p (cutTick p s t) := by
  have hrec : s.recState = RecSt.recording := hin.raf_rec hraf
  have hpause : s.paused = false := hin.raf_unpaused hraf
  have hstops : s.stops = 0 := hin.rec_stops.mp hrec
  have htlb : p.startTime ≤ t := le_trans hin.time_lb hmono
  have hbound : ∀ x ∈ s.progressLog, x ≤ cutPercent p t := fun x hx =>
    le_trans (hin.log_cur hstops x hx) (cutPercent_mono hlt hmono)
  by_cases hterm : s.ended = true ∨ p.endTime ≤ t
  · rw [cutTick_terminal_rec (Or.inr hterm) hrec]
    exact {
      time_lb := htlb
      raf_rec := by simp
      raf_unpaused := by simp
      rec_stops := by simp
      stops_le := by
        show s.stops + 1 ≤ 1
        omega
      req_stops := by
        intro _
        show s.stops + 1 = 1
        omega
      count100 := by
        rw [count_append_one_self, hin.count100]
      log_shape := by
        intro x hx
        rcases List.mem_append.mp hx with h | h
        · exact hin.log_shape x h
        · simp only [List.mem_singleton] at h
          exact Or.inl h
      log_chain := by
        refine chain'_append_one hin.log_chain fun x hx => ?_
        rcases hin.log_shape x hx with h | h <;> omega
      log_cur := by
        intro h
        exact absurd (show s.stops + 1 = 0 from h) (by omega)
      last100 := fun _ => List.getLast?_concat _
      frozen := fun _ => ⟨rfl, rfl⟩
      sampled_lt := hin.sampled_lt
      result_spec := by
        intro a ha
        exact absurd (hin.result_spec a ha).2.2.2 (by omega)
      result_req := by
        intro h
        obtain ⟨a, ha⟩ := Option.isSome_iff_exists.mp h
        exact absurd (hin.result_spec a ha).2.2.2 (by omega)
    }
  · push_neg at hterm
    obtain ⟨hend, hlt2⟩ := hterm
    have hend2 : s.ended = false := by
      cases h : s.ended
      · rfl
      · exact absurd h hend
    rw [cutTick_normal hpause hend2 (not_le.mpr hlt2)]
    exact {
      time_lb := htlb
      raf_rec := fun _ => hrec
      raf_unpaused := fun _ => hpause
      rec_stops := hin.rec_stops
      stops_le := hin.stops_le
      req_stops := hin.req_stops
      count100 := by
        rw [count_append_one_ne (cutPercent_ne_100 p t), hin.count100]
      log_shape := by
        intro x hx
        rcases List.mem_append.mp hx with h | h
        · exact hin.log_shape x h
        · simp only [List.mem_singleton] at h
          subst h
          exact Or.inr ⟨cutPercent_nonneg hlt htlb, cutPercent_le_99 p t⟩
      log_chain := chain'_append_one hin.log_chain hbound
      log_cur := by
        intro _ x hx
        rcases List.mem_append.mp hx with h | h
        · exact hbound x h
        · simp only [List.mem_singleton] at h
          exact le_of_eq h
      last100 := by
        intro h
        exact absurd (show s.stops = 1 from h) (by omega)
      frozen := by
        intro h
        exact absurd (show s.stops = 1 from h) (by omega)
      sampled_lt := by
        intro x hx
        rcases List.mem_append.mp hx with h | h
        · exact hin.sampled_lt x h
        · simp only [List.mem_singleton] at h
          subst h
          exact hlt2
      result_spec := by
        intro a ha
        exact absurd (hin.result_spec a ha).2.2.2 (by omega)
      result_req := hin.result_req
    }

theorem cutInv_data {p : CutParams} {s : CutState} (hin : CutInv p s)
    (c : List ℕ) (hres : s.result.isNone = true) :
    CutInv p (cutData s c) := by
  have hnone : s.result = none := Option.isNone_iff_eq_none.mp hres
  unfold cutData
  split
  · exact {
      time_lb := hin.time_lb
      raf_rec := hin.raf_rec
      raf_unpaused := hin.raf_unpaused
      rec_stops := hin.rec_stops
      stops_le := hin.stops_le
      req_stops := hin.req_stops
      count100 := hin.count100
      log_shape := hin.log_shape
      log_chain := hin.log_chain
      log_cur := hin.log_cur
      last100 := hin.last100
      frozen := hin.frozen
      sampled_lt := hin.sampled_lt
      result_spec := by
        intro a ha
        rw [hnone] at ha
        cases ha
      result_req := hin.result_req
    }
  · exact hin

theorem cutInv_stopFired {p : CutParams} {s : CutState} (hin : CutInv p s)
    (hreq : s.stopRequested = true) :
    CutInv p (cutStopFired s) := by
  have h1 : s.stops = 1 := hin.req_stops hreq
  unfold cutStopFired
  exact {
    time_lb := hin.time_lb
    raf_rec := hin.raf_rec
    raf_unpaused := hin.raf_unpaused
    rec_stops := hin.rec_stops
    stops_le := hin.stops_le
    req_stops := by
      intro h
      simp at h
    count100 := hin.count100
    log_shape := hin.log_shape
    log_chain := hin.log_chain
    log_cur := by
      intro h
      exact absurd (show s.stops = 0 from h) (by omega)
    last100 := hin.last100
    frozen := hin.frozen
    sampled_lt := hin.sampled_lt
    result_spec := by
      intro a ha
      simp only [Option.some.injEq] at ha
      exact ⟨ha.symm, hin.last100 h1, rfl, h1⟩
    result_req := fun _ => rfl
  }

theorem cutInv_ended {p : CutParams} {s : CutState} (hin : CutInv p s) :
    CutInv p (cutEnded s) :=
  { time_lb := hin.time_lb
    raf_rec := hin.raf_rec
    raf_unpaused := hin.raf_unpaused
    rec_stops := hin.rec_stops
    stops_le := hin.stops_le
    req_stops := hin.req_stops
    count100 := hin.count100
    log_shape := hin.log_shape
    log_chain := hin.log_chain
    log_cur := hin.log_cur
    last100 := hin.last100
    frozen := hin.frozen
    sampled_lt := hin.sampled_lt
    result_spec := hin.result_spec
    result_req := hin.result_req }

theorem cutInv_step {p : CutParams} (hlt : p.startTime < p.endTime)
    {s : CutState} {e : CutEvent} (hin : CutInv p s)
    (hok : cutEventOk s e = true) :
    CutInv p (cutStep p s e) := by
  cases e with
  | tick t =>
    simp only [cutEventOk, Bool.and_eq_true, decide_eq_true_eq] at hok
    exact cutInv_tick hlt hin hok.1 hok.2
  | data c =>
    simp only [cutEventOk] at hok
    exact cutInv_data hin c hok
  | stopFired =>
    simp only [cutEventOk] at hok
    exact cutInv_stopFired hin hok
  | endedEvt =>
    exact cutInv_ended hin

theorem cutInv_run {p : CutParams} (hlt : p.startTime < p.endTime) :
    ∀ (es : List CutEvent) (s : CutState), CutInv p s →
      cutValid p s es = true → CutInv p (cutRun p s es)
  | [], _, hin, _ => hin
  | e :: es, s, hin, hv => by
    simp only [cutValid, Bool.and_eq_true] at hv
    exact cutInv_run hlt es _ (cutInv_step hlt hin hv.1) hv.2

/-! ## Invariant of a `compressVideo` run -/

theorem compressInv_init : CompressInv compressInitState := by
  constructor <;> simp [compressInitState]

theorem compressInv_tick {d : ℚ} (hd : 0 < d) {s : CompressState}
    (hin : CompressInv s) {t : ℚ} (hmono : s.currentTime ≤ t) :
    CompressInv (compressTick d s t) := by
  have htlb : (0:ℚ) ≤ t := le_trans hin.time_lb hmono
  by_cases hterm : s.paused = true ∨ s.ended = true
  · rw [compressTick_terminal hterm]
    exact {
      time_lb := htlb
      ended_quiet := hin.ended_quiet
      pend_ended := hin.pend_ended
      pend_stops := hin.pend_stops
      rec_stops := hin.rec_stops
      stops_le := hin.stops_le
      req_stops := hin.req_stops
      count100 := hin.count100
      log_shape := hin.log_shape
      result_spec := hin.result_spec
      result_req := hin.result_req
    }
  · push_neg at hterm
    obtain ⟨hp, he⟩ := hterm
    have hp2 : s.paused = false := by
      cases h : s.paused
      · rfl
      · exact absurd h hp
    have he2 : s.ended = false := by
      cases h : s.ended
      · rfl
      · exact absurd h he
    rw [compressTick_normal hp2 he2]
    exact {
      time_lb := htlb
      ended_quiet := hin.ended_quiet
      pend_ended := hin.pend_ended
      pend_stops := hin.pend_stops
      rec_stops := hin.rec_stops
      stops_le := hin.stops_le
      req_stops := hin.req_stops
      count100 := by
        rw [count_append_one_ne (compressPercent_ne_100 d t), hin.count100]
      log_shape := by
        intro x hx
        rcases List.mem_append.mp hx with h | h
        · exact hin.log_shape x h
        · simp only [List.mem_singleton] at h
          subst h
          exact Or.inr ⟨compressPercent_nonneg hd htlb, compressPercent_le_99 d t⟩
      result_spec := hin.result_spec
      result_req := hin.result_req
    }

theorem compressInv_ended {s : CompressState} (hin : CompressInv s)
    (he : s.ended = false) :
    CompressInv (compressOnEnded s) := by
  have hq := hin.ended_quiet he
  unfold compressOnEnded
  exact {
    time_lb := hin.time_lb
    ended_quiet := by
      intro h
      simp at h
    pend_ended := fun _ => rfl
    pend_stops := fun _ => hq.2
    rec_stops := hin.rec_stops
    stops_le := hin.stops_le
    req_stops := hin.req_stops
    count100 := hin.count100
    log_shape := hin.log_shape
    result_spec := hin.result_spec
    result_req := hin.result_req
  }

theorem compressInv_timeout {s : CompressState} (hin : CompressInv s)
    (hpend : s.timeoutPending = true) :
    CompressInv (compressTimeout s) := by
  have hstops0 : s.stops = 0 := hin.pend_stops hpend
  have hended : s.ended = true := hin.pend_ended hpend
  have hrec : s.recState = RecSt.recording := hin.rec_stops.mpr hstops0
  rw [compressTimeout_rec hrec]
  exact {
    time_lb := hin.time_lb
    ended_quiet := by
      intro h
      exact absurd (show s.ended = false from h) (by simp [hended])
    pend_ended := by
      intro h
      simp at h
    pend_stops := by
      intro h
      simp at h
    rec_stops := by simp
    stops_le := by
      show s.stops + 1 ≤ 1
      omega
    req_stops := by
      intro _
      show s.stops + 1 = 1
      omega
    count100 := by
      rw [count_append_one_self, hin.count100]
    log_shape := by
      intro x hx
      rcases List.mem_append.mp hx with h | h
      · exact hin.log_shape x h
      · simp only [List.mem_singleton] at h
        exact Or.inl h
    result_spec := by
      intro a ha
      exact absurd (hin.result_spec a ha).2.2 (by omega)
    result_req := by
      intro h
      obtain ⟨a, ha⟩ := Option.isSome_iff_exists.mp h
      exact absurd (hin.result_spec a ha).2.2 (by omega)
  }

theorem compressInv_data {s : CompressState} (hin : CompressInv s)
    (c : List ℕ) (hres : s.result.isNone = true) :
    CompressInv (compressData s c) := by
  have hnone : s.result = none := Option.isNone_iff_eq_none.mp hres
  unfold compressData
  split
  · exact {
      time_lb := hin.time_lb
      ended_quiet := hin.ended_quiet
      pend_ended := hin.pend_ended
      pend_stops := hin.pend_stops
      rec_stops := hin.rec_stops
      stops_le := hin.stops_le
      req_stops := hin.req_stops
      count100 := hin.count100
      log_shape := hin.log_shape
      result_spec := by
        intro a ha
        rw [hnone] at ha
        cases ha
      result_req := hin.result_req
    }
  · exact hin

theorem compressInv_stopFired {s : CompressState} (hin : CompressInv s)
    (hreq : s.stopRequested = true) :
    CompressInv (compressStopFired s) := by
  have h1 : s.stops = 1 := hin.req_stops hreq
  unfold compressStopFired
  exact {
    time_lb := hin.time_lb
    ended_quiet := hin.ended_quiet
    pend_ended := hin.pend_ended
    pend_stops := hin.pend_stops
    rec_stops := hin.rec_stops
    stops_le := hin.stops_le
    req_stops := by
      intro h
      simp at h
    count100 := hin.count100
    log_shape := hin.log_shape
    result_spec := by
      intro a ha
      simp only [Option.some.injEq] at ha
      exact ⟨ha.symm, rfl, h1⟩
    result_req := fun _ => rfl
  }

theorem compressInv_step {d : ℚ} (hd : 0 < d) {s : CompressState}
    {e : CompressEvent} (hin : CompressInv s)
    (hok : compressEventOk s e = true) :
    CompressInv (compressStep d s e) := by
  cases e with
  | tick t =>
    simp only [compressEventOk, Bool.and_eq_true, decide_eq_true_eq] at hok
    exact compressInv_tick hd hin hok.2
  | data c =>
    simp only [compressEventOk] at hok
    exact compressInv_data hin c hok
  | endedEvt =>
    simp only [compressEventOk, Bool.not_eq_true'] at hok
    exact compressInv_ended hin hok
  | timeoutFired =>
    simp only [compressEventOk] at hok
    exact compressInv_timeout hin hok
  | stopFired =>
    simp only [compressEventOk] at hok
    exact compressInv_stopFired hin hok

theorem compressInv_run {d : ℚ} (hd : 0 < d) :
    ∀ (es : List CompressEvent) (s : CompressState), CompressInv s →
      compressValid d s es = true → CompressInv (compressRun d s es)
  | [], _, hin, _ => hin
  | e :: es, s, hin, hv => by
    simp only [compressValid, Bool.and_eq_true] at hv
    exact compressInv_run hd es _ (compressInv_step hd hin hv.1) hv.2

/-! ## Chunk accumulation and resolution along a trace -/

theorem cutTick_chunks (p : CutParams) (s : CutState) (t : ℚ) :
    (cutTick p s t).chunks = s.chunks := by
  simp only [cutTick]
  split
  · split <;> rfl
  · rfl

theorem cutTick_result (p : CutParams) (s : CutState) (t : ℚ) :
    (cutTick p s t).result = s.result := by
  simp only [cutTick]
  split
  · split <;> rfl
  · rfl

theorem cutData_chunks (s : CutState) (c : List ℕ) :
    (cutData s c).chunks = s.chunks ++ if 0 < c.length then [c] else [] := by
  unfold cutData
  split
  · rfl
  · simp

theorem cutData_result (s : CutState) (c : List ℕ) :
    (cutData s c).result = s.result := by
  unfold cutData
  split <;> rfl

theorem cutRun_chunks (p : CutParams) :
    ∀ (es : List CutEvent) (s : CutState),
      (cutRun p s es).chunks =
        s.chunks ++ (cutEmitted es).filter (fun c => decide (0 < c.length))
  | [], s => by simp [cutRun, cutEmitted]
  | CutEvent.tick t :: es, s => by
    rw [cutRun, cutStep, cutRun_chunks p es, cutTick_chunks]
    rfl
  | CutEvent.data c :: es, s => by
    rw [cutRun, cutStep, cutRun_chunks p es, cutData_chunks]
    by_cases hc : 0 < c.length <;>
      simp [cutEmitted, List.filter, hc, List.append_assoc]
  | CutEvent.stopFired :: es, s => by
    rw [cutRun, cutStep, cutRun_chunks p es]
    rfl
  | CutEvent.endedEvt :: es, s => by
    rw [cutRun, cutStep, cutRun_chunks p es]
    rfl

theorem cutRun_result_of_no_finalize (p : CutParams) :
    ∀ (es : List CutEvent) (s : CutState), cutHasStopFired es = false →
      (cutRun p s es).result = s.result
  | [], _, _ => rfl
  | CutEvent.tick t :: es, s, h => by
    rw [cutRun, cutStep, cutRun_result_of_no_finalize p es _ h, cutTick_result]
  | CutEvent.data c :: es, s, h => by
    rw [cutRun, cutStep, cutRun_result_of_no_finalize p es _ h, cutData_result]
  | CutEvent.stopFired :: es, s, h => by
    simp [cutHasStopFired] at h
  | CutEvent.endedEvt :: es, s, h => by
    rw [cutRun, cutStep, cutRun_result_of_no_finalize p es _ h]
    rfl

theorem compressTick_chunks (d : ℚ) (s : CompressState) (t : ℚ) :
    (compressTick d s t).chunks = s.chunks := by
  simp only [compressTick]
  split <;> rfl

theorem compressTick_result (d : ℚ) (s : CompressState) (t : ℚ) :
    (compressTick d s t).result = s.result := by
  simp only [compressTick]
  split <;> rfl

theorem compressData_chunks (s : CompressState) (c : List ℕ) :
    (compressData s c).chunks = s.chunks ++ if 0 < c.length then [c] else [] := by
  unfold compressData
  split
  · rfl
  · simp

theorem compressData_result (s : CompressState) (c : List ℕ) :
    (compressData s c).result = s.result := by
  unfold compressData
  split <;> rfl

theorem compressTimeout_chunks (s : CompressState) :
    (compressTimeout s).chunks = s.chunks := by
  simp only [compressTimeout]
  split <;> rfl

theorem compressTimeout_result (s : CompressState) :
    (compressTimeout s).result = s.result := by
  simp only [compressTimeout]
  split <;> rfl

theorem compressRun_chunks (d : ℚ) :
    ∀ (es : List CompressEvent) (s : CompressState),
      (compressRun d s es).chunks =
        s.chunks ++ (compressEmitted es).filter (fun c => decide (0 < c.length))
  | [], s => by simp [compressRun, compressEmitted]
  | CompressEvent.tick t :: es, s => by
    rw [compressRun, compressStep, compressRun_chunks d es, compressTick_chunks]
    rfl
  | CompressEvent.data c :: es, s => by
    rw [compressRun, compressStep, compressRun_chunks d es, compressData_chunks]
    by_cases hc : 0 < c.length <;>
      simp [compressEmitted, List.filter, hc, List.append_assoc]
  | CompressEvent.endedEvt :: es, s => by
    rw [compressRun, compressStep, compressRun_chunks d es]
    rfl
  | CompressEvent.timeoutFired :: es, s => by
    rw [compressRun, compressStep, compressRun_chunks d es, compressTimeout_chunks]
    rfl
  | CompressEvent.stopFired :: es, s => by
    rw [compressRun, compressStep, compressRun_chunks d es]
    rfl

theorem compressRun_result_of_no_finalize (d : ℚ) :
    ∀ (es : List CompressEvent) (s : CompressState),
      compressHasStopFired es = false →
      (compressRun d s es).result = s.result
  | [], _, _ => rfl
  | CompressEvent.tick t :: es, s, h => by
    rw [compressRun, compressStep,
      compressRun_result_of_no_finalize d es _ h, compressTick_result]
  | CompressEvent.data c :: es, s, h => by
    rw [compressRun, compressStep,
      compressRun_result_of_no_finalize d es _ h, compressData_result]
  | CompressEvent.endedEvt :: es, s, h => by
    rw [compressRun, compressStep, compressRun_result_of_no_finalize d es _ h]
    rfl
  | CompressEvent.timeoutFired :: es, s, h => by
    rw [compressRun, compressStep,
      compressRun_result_of_no_finalize d es _ h, compressTimeout_result]
  | CompressEvent.stopFired :: es, s, h => by
    simp [compressHasStopFired] at h

/-! ## Claim theorems -/

/-- C7: CaptureSurface dimensions come from the source aspect policy and a
single computation: for compression the output height is the fixed policy
height `TARGET_HEIGHT = 360` with the width scaled from the source aspect;
for extraction the source dimensions pass through unchanged unless the
source height exceeds the `MAX_HEIGHT = 720` cap, in which case the height
is the cap and the width is scaled from the source aspect, never exceeding
the source width or height (no upscaling). -/
theorem c7_dimensions (videoWidth videoHeight : ℕ) :
    ((compressDims videoWidth videoHeight).2 = (TARGET_HEIGHT : ℤ) ∧
      TARGET_HEIGHT = 360) ∧
    (videoHeight ≤ MAX_HEIGHT →
      cutDims videoWidth videoHeight = ((videoWidth : ℤ), (videoHeight : ℤ))) ∧
    (MAX_HEIGHT < videoHeight →
      (cutDims videoWidth videoHeight).2 = (MAX_HEIGHT : ℤ) ∧
      (cutDims videoWidth videoHeight).1 =
        jsRound ((MAX_HEIGHT : ℚ) * ((videoWidth : ℚ) / (videoHeight : ℚ))) ∧
      (cutDims videoWidth videoHeight).1 ≤ (videoWidth : ℤ) ∧
      (cutDims videoWidth videoHeight).2 ≤ (videoHeight : ℤ)) := by
  refine ⟨⟨rfl, rfl⟩, ?_, ?_⟩
  · intro hle
    unfold cutDims
    rw [if_neg (by omega)]
  · intro hgt
    unfold cutDims
    rw [if_pos hgt]
    refine ⟨rfl, rfl, ?_, ?_⟩
    · have hh : (0:ℚ) < (videoHeight : ℚ) := by
        exact_mod_cast Nat.lt_of_le_of_lt (Nat.zero_le MAX_HEIGHT) hgt
      have hx : (MAX_HEIGHT : ℚ) * ((videoWidth : ℚ) / (videoHeight : ℚ)) ≤
          (videoWidth : ℚ) := by
        rw [mul_div_assoc', div_le_iff₀ hh]
        have h1 : (MAX_HEIGHT : ℚ) ≤ (videoHeight : ℚ) := by
          exact_mod_cast Nat.le_of_lt hgt
        have h2 : (0:ℚ) ≤ (videoWidth : ℚ) := by positivity
        calc (MAX_HEIGHT : ℚ) * (videoWidth : ℚ)
            ≤ (videoHeight : ℚ) * (videoWidth : ℚ) :=
              mul_le_mul_of_nonneg_right h1 h2
          _ = (videoWidth : ℚ) * (videoHeight : ℚ) := mul_comm _ _
      show jsRound ((MAX_HEIGHT : ℚ) * ((videoWidth : ℚ) / (videoHeight : ℚ))) ≤
        (videoWidth : ℤ)
      rw [jsRound_eq_floor, Int.floor_le_iff]
      push_cast
      linarith
    · show (MAX_HEIGHT : ℤ) ≤ (videoHeight : ℤ)
      exact_mod_cast Nat.le_of_lt hgt

/-- C7 witness: instantiated at a 1920 x 1080 source, the extraction
surface is capped at 720 with width 1280, never above the source. -/
theorem c7_witness :
    cutDims 1920 1080 = (1280, 720) ∧
    (cutDims 1920 1080).1 ≤ (1920 : ℤ) ∧
    (compressDims 1920 1080).2 = (360 : ℤ) := by
  refine ⟨by decide, ((c7_dimensions 1920 1080).2.2 (by decide)).2.2.1, ?_⟩
  exact ((c7_dimensions 1920 1080).1).1

/-- C3: a file below the size threshold short-circuits `compressVideo`:
the promise resolves immediately with the original asset itself, the
progress callback is invoked exactly once with 100, and neither the video
element nor the temporary object URL is allocated. -/
theorem c3_fast_path (file : FileAsset) (h : file.size < 20 * 1024 * 1024) :
    (compressInit file).result = some file ∧
    (compressInit file).progressCalls = [100] ∧
    (compressInit file).error = none ∧
    (compressInit file).videoAllocated = false ∧
    (compressInit file).urlAllocated = false := by
  unfold compressInit
  rw [if_pos h]
  exact ⟨rfl, rfl, rfl, rfl, rfl⟩

/-- C3 witness: a 1-byte file takes the fast path. -/
theorem c3_witness :
    (compressInit ⟨1⟩).result = some ⟨1⟩ ∧
    (compressInit ⟨1⟩).progressCalls = [100] ∧
    (compressInit ⟨1⟩).error = none ∧
    (compressInit ⟨1⟩).videoAllocated = false ∧
    (compressInit ⟨1⟩).urlAllocated = false :=
  c3_fast_path ⟨1⟩ (by decide)

/-- C10: the compression fast-path threshold is exactly
`20 * 1024 * 1024 = 20971520` bytes with a strict less-than comparison:
strictly below it the original asset is returned without allocating the
pipeline, at or above it the full pipeline is entered. -/
theorem c10_threshold (file : FileAsset) :
    (file.size < 20971520 →
      compressInit file =
        { progressCalls := [100], result := some file, error := none,
          videoAllocated := false, urlAllocated := false }) ∧
    (20971520 ≤ file.size →
      compressInit file =
        { progressCalls := [], result := none, error := none,
          videoAllocated := true, urlAllocated := true }) := by
  constructor
  · intro h
    unfold compressInit
    rw [if_pos (by omega)]
  · intro h
    unfold compressInit
    rw [if_neg (by omega)]

/-- C10 witness: the boundary sizes 20971519 and 20971520 fall on the two
sides of the strict comparison. -/
theorem c10_witness :
    compressInit ⟨20971519⟩ =
      { progressCalls := [100], result := some ⟨20971519⟩, error := none,
        videoAllocated := false, urlAllocated := false } ∧
    compressInit ⟨20971520⟩ =
      { progressCalls := [], result := none, error := none,
        videoAllocated := true, urlAllocated := true } :=
  ⟨(c10_threshold ⟨20971519⟩).1 (by decide),
   (c10_threshold ⟨20971520⟩).2 (by decide)⟩

/-- C2 counterexample: calling `cutVideo` with `startTime = 5 ≥ endTime = 3`
does not fail with a `RangeError` — no error is raised at all — and the
playback session and temporary object URL are allocated anyway,
contradicting the claim that invalid ranges fail before any resource
allocation. -/
theorem c2_counterexample :
    (cutInit ⟨25165824⟩ 5 3).error = none ∧
    (cutInit ⟨25165824⟩ 5 3).error ≠ some PipeError.rangeError ∧
    (cutInit ⟨25165824⟩ 5 3).videoAllocated = true ∧
    (cutInit ⟨25165824⟩ 5 3).urlAllocated = true := by
  refine ⟨rfl, ?_, rfl, rfl⟩
  intro h
  cases h

/-- C2 (amended): `cutVideo` performs no range validation whatsoever: for
every file and every `(startTime, endTime)` — including `startTime ≥
endTime` and `endTime > duration` — it allocates the video element and the
temporary object URL and raises no `RangeError`; a degenerate range is
instead detected by the first sampling tick, which immediately stops the
encoder, reports a single 100 and samples no frame. -/
theorem c2_no_range_validation (file : FileAsset) (startTime endTime : ℚ)
    (hdeg : endTime ≤ startTime) :
    cutInit file startTime endTime =
      { progressCalls := [], result := none, error := none,
        videoAllocated := true, urlAllocated := true } ∧
    (cutTick ⟨startTime, endTime⟩ (cutInitState ⟨startTime, endTime⟩)
        startTime).stops = 1 ∧
    (cutTick ⟨startTime, endTime⟩ (cutInitState ⟨startTime, endTime⟩)
        startTime).progressLog = [100] ∧
    (cutTick ⟨startTime, endTime⟩ (cutInitState ⟨startTime, endTime⟩)
        startTime).sampled = [] := by
  refine ⟨rfl, ?_⟩
  rw [cutTick_terminal_rec (Or.inr (Or.inr hdeg)) rfl]
  exact ⟨rfl, rfl, rfl⟩

/-- C2 witness: at `startTime = 5, endTime = 3` the call allocates
resources, raises nothing, and the first tick finalizes at once. -/
theorem c2_witness :
    cutInit ⟨25165824⟩ 5 3 =
      { progressCalls := [], result := none, error := none,
        videoAllocated := true, urlAllocated := true } ∧
    (cutTick ⟨5, 3⟩ (cutInitState ⟨5, 3⟩) 5).stops = 1 ∧
    (cutTick ⟨5, 3⟩ (cutInitState ⟨5, 3⟩) 5).progressLog = [100] ∧
    (cutTick ⟨5, 3⟩ (cutInitState ⟨5, 3⟩) 5).sampled = [] :=
  c2_no_range_validation ⟨25165824⟩ 5 3 (by decide)

/-- C5 counterexample: in an environment that rejects both codec-specific
MIME strings but supports plain `video/webm`, the extraction pipeline
falls back and constructs a recorder, while the compression pipeline —
whose construction the claim says also tries a preference list — fails
outright: compression has no fallback. -/
theorem c5_counterexample :
    compressCreateRecorder (fun m => m == WEBM_MIME) =
      Except.error PipeError.notSupported ∧
    cutCreateRecorder (fun m => m == WEBM_MIME) =
      Except.ok { mimeType := WEBM_MIME, videoBitsPerSecond := 2500000 } :=
  ⟨rfl, rfl⟩

/-- C5 (amended): only the extraction pipeline negotiates codecs over a
two-entry preference list — VP9 first, plain `video/webm` on construction
failure — and failure of the first preference alone is not fatal; when
every preference fails the construction error (`notSupported`) surfaces,
not a dedicated `EncoderInitError`.  The compression pipeline constructs a
single fixed VP8 configuration with no fallback: its construction fails
whenever that one configuration is unsupported, even if a fallback MIME
would have worked. -/
theorem c5_codec_fallback (supports : String → Bool) :
    (supports VP9_MIME = true →
      cutCreateRecorder supports =
        Except.ok { mimeType := VP9_MIME, videoBitsPerSecond := 2500000 }) ∧
    (supports VP9_MIME = false → supports WEBM_MIME = true →
      cutCreateRecorder supports =
        Except.ok { mimeType := WEBM_MIME, videoBitsPerSecond := 2500000 }) ∧
    (supports VP9_MIME = false → supports WEBM_MIME = false →
      cutCreateRecorder supports = Except.error PipeError.notSupported) ∧
    (supports VP8_MIME = true →
      compressCreateRecorder supports =
        Except.ok { mimeType := VP8_MIME, videoBitsPerSecond := 600000 }) ∧
    (supports VP8_MIME = false →
      compressCreateRecorder supports = Except.error PipeError.notSupported) := by
  refine ⟨?_, ?_, ?_, ?_, ?_⟩
  · intro h1
    unfold cutCreateRecorder
    rw [if_pos h1]
  · intro h1 h2
    unfold cutCreateRecorder
    rw [if_neg (by simp [h1]), if_pos h2]
  · intro h1 h2
    unfold cutCreateRecorder
    rw [if_neg (by simp [h1]), if_neg (by simp [h2])]
  · intro h1
    unfold compressCreateRecorder
    rw [if_pos h1]
  · intro h1
    unfold compressCreateRecorder
    rw [if_neg (by simp [h1])]

/-- C5 witness: a VP9-refusing, webm-accepting environment takes the
extraction fallback; an environment without VP8 support fails compression
construction. -/
theorem c5_witness :
    cutCreateRecorder (fun m => m == WEBM_MIME) =
      Except.ok { mimeType := WEBM_MIME, videoBitsPerSecond := 2500000 } ∧
    compressCreateRecorder (fun _ => false) =
      Except.error PipeError.notSupported :=
  ⟨(c5_codec_fallback (fun m => m == WEBM_MIME)).2.1 (by decide) (by decide),
   (c5_codec_fallback (fun _ => false)).2.2.2.2 rfl⟩

/-- C4 counterexample: when `video.play()` is refused at the start of an
extraction run, the catch handler rejects with the playback error but the
temporary object URL is not revoked and the already-started recorder is
still in the recording state — resources bound to the run are not
released, contradicting the claim. -/
theorem c4_counterexample :
    (cutPlayCatch (cutInitState ⟨0, 10⟩) PipeError.playRefused).err =
      some PipeError.playRefused ∧
    (cutPlayCatch (cutInitState ⟨0, 10⟩) PipeError.playRefused).urlRevoked =
      false ∧
    (cutPlayCatch (cutInitState ⟨0, 10⟩) PipeError.playRefused).recState =
      RecSt.recording :=
  ⟨rfl, rfl, rfl⟩

/-- C4 (amended): on autoplay refusal either pipeline rejects with the
playback error, but performs no cleanup on that path: the temporary object
URL stays unrevoked and the recorder state is untouched (in a real run it
is still recording).  The URL is revoked on the load-error path, on the
null-rendering-context path, and on normal completion in the finalize
handler — but not on the play-refusal path. -/
theorem c4_exit_paths (s : CutState) (s2 : CompressState) (e e2 : PipeError) :
    ((cutPlayCatch s e).err = some e ∧
     (cutPlayCatch s e).urlRevoked = s.urlRevoked ∧
     (cutPlayCatch s e).recState = s.recState ∧
     (cutPlayCatch s e).paused = s.paused) ∧
    ((compressPlayCatch s2 e2).err = some e2 ∧
     (compressPlayCatch s2 e2).urlRevoked = s2.urlRevoked ∧
     (compressPlayCatch s2 e2).recState = s2.recState) ∧
    ((cutLoadFail s).urlRevoked = true ∧
     (cutLoadFail s).err = some PipeError.loadError) ∧
    ((cutCtxFail s).urlRevoked = true ∧
     (cutCtxFail s).err = some PipeError.surfaceError) ∧
    (cutStopFired s).urlRevoked = true ∧
    (compressLoadFail s2).urlRevoked = true ∧
    (compressCtxFail s2).urlRevoked = true ∧
    (compressStopFired s2).urlRevoked = true :=
  ⟨⟨rfl, rfl, rfl, rfl⟩, ⟨rfl, rfl, rfl⟩, ⟨rfl, rfl⟩, ⟨rfl, rfl⟩,
   rfl, rfl, rfl, rfl⟩

/-- C6: a tick that observes the driver paused, ended, or the clock at or
past the requested end samples no frame, schedules no further tick, pauses
the driver, and — when the encoder is recording — stops it; consequently
along any valid extraction run every sampled time is strictly below the
requested end.  The compression tick likewise stops rescheduling once the
driver is paused or ended. -/
theorem c6_end_detection (p : CutParams) (s : CutState) (t : ℚ)
    (d : ℚ) (s2 : CompressState) (u : ℚ) (es : List CutEvent)
    (hterm : s.paused = true ∨ s.ended = true ∨ p.endTime ≤ t)
    (hterm2 : s2.paused = true ∨ s2.ended = true)
    (hlt : p.startTime < p.endTime)
    (hv : cutValid p (cutInitState p) es = true) :
    ((cutTick p s t).sampled = s.sampled ∧
     (cutTick p s t).raf = false ∧
     (cutTick p s t).paused = true) ∧
    (s.recState = RecSt.recording → (cutTick p s t).stops = s.stops + 1) ∧
    (∀ x ∈ (cutRun p (cutInitState p) es).sampled, x < p.endTime) ∧
    ((compressTick d s2 u).sampled = s2.sampled ∧
     (compressTick d s2 u).raf = false) := by
  refine ⟨?_, ?_, ?_, ?_⟩
  · by_cases hrec : s.recState = RecSt.recording
    · rw [cutTick_terminal_rec hterm hrec]
      exact ⟨rfl, rfl, rfl⟩
    · rw [cutTick_terminal_idle hterm hrec]
      exact ⟨rfl, rfl, rfl⟩
  · intro hrec
    rw [cutTick_terminal_rec hterm hrec]
  · exact (cutInv_run hlt es _ (cutInv_init p) hv).sampled_lt
  · rw [compressTick_terminal hterm2]
    exact ⟨rfl, rfl⟩

/-- C6 witness: over the range [0, 10], a tick at time 12 on the initial
state stops the encoder without sampling, and the run with ticks at 0 and
10 samples only at time 0, below the end. -/
theorem c6_witness :
    ((cutTick ⟨0, 10⟩ (cutInitState ⟨0, 10⟩) 12).sampled =
      (cutInitState ⟨0, 10⟩).sampled ∧
     (cutTick ⟨0, 10⟩ (cutInitState ⟨0, 10⟩) 12).raf = false ∧
     (cutTick ⟨0, 10⟩ (cutInitState ⟨0, 10⟩) 12).paused = true) ∧
    ((cutInitState ⟨0, 10⟩).recState = RecSt.recording →
      (cutTick ⟨0, 10⟩ (cutInitState ⟨0, 10⟩) 12).stops =
        (cutInitState ⟨0, 10⟩).stops + 1) ∧
    (∀ x ∈ (cutRun ⟨0, 10⟩ (cutInitState ⟨0, 10⟩)
        [CutEvent.tick 0, CutEvent.tick 10]).sampled, x < (10:ℚ)) ∧
    ((compressTick 10 (compressOnEnded compressInitState) 3).sampled =
      (compressOnEnded compressInitState).sampled ∧
     (compressTick 10 (compressOnEnded compressInitState) 3).raf = false) :=
  c6_end_detection ⟨0, 10⟩ (cutInitState ⟨0, 10⟩) 12 10
    (compressOnEnded compressInitState) 3
    [CutEvent.tick 0, CutEvent.tick 10]
    (by decide) (by decide) (by decide) (by decide)

/-- C8 counterexample: the compression pipeline's stop trigger (the body
of the timeout scheduled by `onended`) is not guarded on the recorder
state: invoked on a state whose recorder is not recording it still calls
`mediaRecorder.stop()` and reports another 100 — not a no-op,
contradicting the claim that both pipelines guard the trigger. -/
theorem c8_counterexample :
    ({ compressInitState with recState := RecSt.inactive } :
      CompressState).recState ≠ RecSt.recording ∧
    (compressTimeout
      { compressInitState with recState := RecSt.inactive }).stops = 1 ∧
    (compressTimeout
      { compressInitState with recState := RecSt.inactive }).progressLog =
      [100] :=
  ⟨by decide, rfl, rfl⟩

/-- C8 (amended): only the extraction pipeline guards its stop trigger on
the recording state: a terminal tick whose recorder is not recording
leaves the recorder, the stop count and the progress log untouched, so a
valid extraction run stops the encoder at most once even when end-of-range
and end-of-media detection both reach the trigger.  The compression
pipeline's end-of-media trigger invokes `stop()` and reports 100
unconditionally; its runs stop at most once only because the end-of-media
event fires at most once. -/
theorem c8_stop_guard (p : CutParams) (s : CutState) (t : ℚ)
    (s2 : CompressState) (es : List CutEvent) (d : ℚ)
    (fs : List CompressEvent)
    (hrec : s.recState ≠ RecSt.recording)
    (hterm : s.paused = true ∨ s.ended = true ∨ p.endTime ≤ t)
    (hlt : p.startTime < p.endTime)
    (hv : cutValid p (cutInitState p) es = true)
    (hd : 0 < d)
    (hw : compressValid d compressInitState fs = true) :
    ((cutTick p s t).stops = s.stops ∧
     (cutTick p s t).progressLog = s.progressLog ∧
     (cutTick p s t).stopRequested = s.stopRequested ∧
     (cutTick p s t).recState = s.recState) ∧
    (cutRun p (cutInitState p) es).stops ≤ 1 ∧
    ((compressTimeout s2).stops = s2.stops + 1 ∧
     (compressTimeout s2).progressLog = s2.progressLog ++ [100]) ∧
    (compressRun d compressInitState fs).stops ≤ 1 := by
  refine ⟨?_, ?_, ?_, ?_⟩
  · rw [cutTick_terminal_idle hterm hrec]
    exact ⟨rfl, rfl, rfl, rfl⟩
  · exact (cutInv_run hlt es _ (cutInv_init p) hv).stops_le
  · by_cases h2 : s2.recState = RecSt.recording
    · rw [compressTimeout_rec h2]
      exact ⟨rfl, rfl⟩
    · rw [compressTimeout_idle h2]
      exact ⟨rfl, rfl⟩
  · exact (compressInv_run hd fs _ compressInv_init hw).stops_le

/-- C8 witness: instantiated over the range [0, 10] with a stopped
recorder at the terminal tick, a full extraction trace, and a full
compression trace. -/
theorem c8_witness :
    ((cutTick ⟨0, 10⟩ { cutInitState ⟨0, 10⟩ with
        recState := RecSt.inactive } 12).stops =
      ({ cutInitState ⟨0, 10⟩ with recState := RecSt.inactive } :
        CutState).stops ∧
     (cutTick ⟨0, 10⟩ { cutInitState ⟨0, 10⟩ with
        recState := RecSt.inactive } 12).progressLog =
      ({ cutInitState ⟨0, 10⟩ with recState := RecSt.inactive } :
        CutState).progressLog ∧
     (cutTick ⟨0, 10⟩ { cutInitState ⟨0, 10⟩ with
        recState := RecSt.inactive } 12).stopRequested =
      ({ cutInitState ⟨0, 10⟩ with recState := RecSt.inactive } :
        CutState).stopRequested ∧
     (cutTick ⟨0, 10⟩ { cutInitState ⟨0, 10⟩ with
        recState := RecSt.inactive } 12).recState =
      ({ cutInitState ⟨0, 10⟩ with recState := RecSt.inactive } :
        CutState).recState) ∧
    (cutRun ⟨0, 10⟩ (cutInitState ⟨0, 10⟩)
      [CutEvent.tick 0, CutEvent.tick 10, CutEvent.stopFired]).stops ≤ 1 ∧
    ((compressTimeout compressInitState).stops =
      compressInitState.stops + 1 ∧
     (compressTimeout compressInitState).progressLog =
      compressInitState.progressLog ++ [100]) ∧
    (compressRun 10 compressInitState
      [CompressEvent.tick 0, CompressEvent.endedEvt,
       CompressEvent.timeoutFired, CompressEvent.stopFired]).stops ≤ 1 :=
  c8_stop_guard ⟨0, 10⟩
    { cutInitState ⟨0, 10⟩ with recState := RecSt.inactive } 12
    compressInitState
    [CutEvent.tick 0, CutEvent.tick 10, CutEvent.stopFired] 10
    [CompressEvent.tick 0, CompressEvent.endedEvt,
     CompressEvent.timeoutFired, CompressEvent.stopFired]
    (by decide) (by decide) (by decide) (by decide) (by decide) (by decide)

/-- C9: along any run of either pipeline, the accumulated chunk list is
exactly the encoder's emissions in order with the empty chunks discarded
(append-only, never reordered); whenever the run resolves, the artifact is
the concatenation of the accumulated chunks and the encoder has been
stopped; and a trace without the finalize event never resolves — the
finalize signal is the sole successful resolution path of the pipeline. -/
theorem c9_chunk_pipeline (p : CutParams) (es : List CutEvent)
    (d : ℚ) (fs : List CompressEvent)
    (hlt : p.startTime < p.endTime)
    (hv : cutValid p (cutInitState p) es = true)
    (hd : 0 < d)
    (hw : compressValid d compressInitState fs = true) :
    (cutRun p (cutInitState p) es).chunks =
      (cutEmitted es).filter (fun c => decide (0 < c.length)) ∧
    (∀ a, (cutRun p (cutInitState p) es).result = some a →
      a = (cutRun p (cutInitState p) es).chunks.flatten ∧
      (cutRun p (cutInitState p) es).stops = 1) ∧
    (cutHasStopFired es = false →
      (cutRun p (cutInitState p) es).result = none) ∧
    (compressRun d compressInitState fs).chunks =
      (compressEmitted fs).filter (fun c => decide (0 < c.length)) ∧
    (∀ a, (compressRun d compressInitState fs).result = some a →
      a = (compressRun d compressInitState fs).chunks.flatten ∧
      (compressRun d compressInitState fs).stops = 1) ∧
    (compressHasStopFired fs = false →
      (compressRun d compressInitState fs).result = none) := by
  have hcut := cutInv_run hlt es _ (cutInv_init p) hv
  have hcom := compressInv_run hd fs _ compressInv_init hw
  refine ⟨?_, ?_, ?_, ?_, ?_, ?_⟩
  · rw [cutRun_chunks]
    rfl
  · intro a ha
    exact ⟨(hcut.result_spec a ha).1, (hcut.result_spec a ha).2.2.2⟩
  · intro h
    rw [cutRun_result_of_no_finalize p es _ h]
    rfl
  · rw [compressRun_chunks]
    rfl
  · intro a ha
    exact ⟨(hcom.result_spec a ha).1, (hcom.result_spec a ha).2.2⟩
  · intro h
    rw [compressRun_result_of_no_finalize d fs _ h]
    rfl

/-- C9 witness: concrete runs of both pipelines in which a non-empty
chunk, an empty chunk and another non-empty chunk are emitted: the empty
one is discarded, order is preserved, and the artifact resolves to the
concatenation at the finalize event. -/
theorem c9_witness :
    (cutRun ⟨0, 10⟩ (cutInitState ⟨0, 10⟩)
      [CutEvent.tick 0, CutEvent.data [7], CutEvent.data [],
       CutEvent.tick 4, CutEvent.tick 10, CutEvent.data [9],
       CutEvent.stopFired]).chunks =
      (cutEmitted
        [CutEvent.tick 0, CutEvent.data [7], CutEvent.data [],
         CutEvent.tick 4, CutEvent.tick 10, CutEvent.data [9],
         CutEvent.stopFired]).filter (fun c => decide (0 < c.length)) ∧
    (compressRun 10 compressInitState
      [CompressEvent.tick 0, CompressEvent.data [3], CompressEvent.endedEvt,
       CompressEvent.timeoutFired, CompressEvent.data [4],
       CompressEvent.stopFired]).chunks =
      (compressEmitted
        [CompressEvent.tick 0, CompressEvent.data [3], CompressEvent.endedEvt,
         CompressEvent.timeoutFired, CompressEvent.data [4],
         CompressEvent.stopFired]).filter (fun c => decide (0 < c.length)) :=
  ⟨(c9_chunk_pipeline ⟨0, 10⟩
      [CutEvent.tick 0, CutEvent.data [7], CutEvent.data [],
       CutEvent.tick 4, CutEvent.tick 10, CutEvent.data [9],
       CutEvent.stopFired] 10
      [CompressEvent.tick 0, CompressEvent.data [3], CompressEvent.endedEvt,
       CompressEvent.timeoutFired, CompressEvent.data [4],
       CompressEvent.stopFired]
      (by decide) (by decide) (by decide) (by decide)).1,
   (c9_chunk_pipeline ⟨0, 10⟩
      [CutEvent.tick 0, CutEvent.data [7], CutEvent.data [],
       CutEvent.tick 4, CutEvent.tick 10, CutEvent.data [9],
       CutEvent.stopFired] 10
      [CompressEvent.tick 0, CompressEvent.data [3], CompressEvent.endedEvt,
       CompressEvent.timeoutFired, CompressEvent.data [4],
       CompressEvent.stopFired]
      (by decide) (by decide) (by decide) (by decide)).2.2.2.1⟩

/-- C1 counterexample: in the extraction run over [0, 10] with ticks at
0, 4 and 10, the terminal tick reports the final 100 while the artifact is
still unresolved; resolution happens only at the later finalize event.
The final 100 call therefore precedes the encoder finalize signal — it
does not follow it as the claim states. -/
theorem c1_counterexample :
    cutValid ⟨0, 10⟩ (cutInitState ⟨0, 10⟩)
      [CutEvent.tick 0, CutEvent.tick 4, CutEvent.tick 10,
       CutEvent.stopFired] = true ∧
    (cutRun ⟨0, 10⟩ (cutInitState ⟨0, 10⟩)
      [CutEvent.tick 0, CutEvent.tick 4, CutEvent.tick 10]).progressLog =
      [0, 40, 100] ∧
    (cutRun ⟨0, 10⟩ (cutInitState ⟨0, 10⟩)
      [CutEvent.tick 0, CutEvent.tick 4, CutEvent.tick 10]).result = none ∧
    (cutRun ⟨0, 10⟩ (cutInitState ⟨0, 10⟩)
      [CutEvent.tick 0, CutEvent.tick 4, CutEvent.tick 10,
       CutEvent.stopFired]).result = some [] :=
  ⟨by decide, by decide, by decide, by decide⟩

/-- C1 (amended): along any valid extraction run the progress values are
nondecreasing, every value other than the final 100 lies in [0, 99], the
value 100 is reported exactly as many times as the encoder is stopped
(hence at most once), a stopped run's log ends with that single 100, and
resolution of the artifact implies the 100 has already been reported — the
final 100 follows the stop trigger synchronously and precedes the encoder
finalize signal, never the other way round.  The compression run obeys the
same clamp-to-99 / reserved-100 discipline. -/
theorem c1_progress_discipline (p : CutParams) (es : List CutEvent)
    (d : ℚ) (fs : List CompressEvent)
    (hlt : p.startTime < p.endTime)
    (hv : cutValid p (cutInitState p) es = true)
    (hd : 0 < d)
    (hw : compressValid d compressInitState fs = true) :
    (cutRun p (cutInitState p) es).progressLog.Chain' (· ≤ ·) ∧
    (∀ x ∈ (cutRun p (cutInitState p) es).progressLog,
      x = 100 ∨ (0 ≤ x ∧ x ≤ 99)) ∧
    ((cutRun p (cutInitState p) es).progressLog.count 100 =
      (cutRun p (cutInitState p) es).stops ∧
     (cutRun p (cutInitState p) es).stops ≤ 1) ∧
    ((cutRun p (cutInitState p) es).stops = 1 →
      (cutRun p (cutInitState p) es).progressLog.getLast? = some 100) ∧
    (∀ a, (cutRun p (cutInitState p) es).result = some a →
      (cutRun p (cutInitState p) es).stops = 1 ∧
      (cutRun p (cutInitState p) es).progressLog.getLast? = some 100) ∧
    (∀ x ∈ (compressRun d compressInitState fs).progressLog,
      x = 100 ∨ (0 ≤ x ∧ x ≤ 99)) ∧
    ((compressRun d compressInitState fs).progressLog.count 100 =
      (compressRun d compressInitState fs).stops ∧
     (compressRun d compressInitState fs).stops ≤ 1) ∧
    (∀ a, (compressRun d compressInitState fs).result = some a →
      (compressRun d compressInitState fs).stops = 1) := by
  have hcut := cutInv_run hlt es _ (cutInv_init p) hv
  have hcom := compressInv_run hd fs _ compressInv_init hw
  refine ⟨hcut.log_chain, hcut.log_shape, ⟨hcut.count100, hcut.stops_le⟩,
    hcut.last100, ?_, hcom.log_shape, ⟨hcom.count100, hcom.stops_le⟩, ?_⟩
  · intro a ha
    exact ⟨(hcut.result_spec a ha).2.2.2,
      (hcut.result_spec a ha).2.1⟩
  · intro a ha
    exact (hcom.result_spec a ha).2.2

/-- C1 witness: the run over [0, 10] with ticks at 0, 4 and 10 followed by
finalize reports [0, 40, 100]: one final 100, everything else clamped. -/
theorem c1_witness :
    ((cutRun ⟨0, 10⟩ (cutInitState ⟨0, 10⟩)
      [CutEvent.tick 0, CutEvent.tick 4, CutEvent.tick 10,
       CutEvent.stopFired]).progressLog.count 100 =
      (cutRun ⟨0, 10⟩ (cutInitState ⟨0, 10⟩)
        [CutEvent.tick 0, CutEvent.tick 4, CutEvent.tick 10,
         CutEvent.stopFired]).stops ∧
     (cutRun ⟨0, 10⟩ (cutInitState ⟨0, 10⟩)
      [CutEvent.tick 0, CutEvent.tick 4, CutEvent.tick 10,
       CutEvent.stopFired]).stops ≤ 1) ∧
    ((compressRun 10 compressInitState
      [CompressEvent.tick 0, CompressEvent.tick 5, CompressEvent.endedEvt,
       CompressEvent.timeoutFired, CompressEvent.stopFired]).progressLog.count
        100 =
      (compressRun 10 compressInitState
        [CompressEvent.tick 0, CompressEvent.tick 5, CompressEvent.endedEvt,
         CompressEvent.timeoutFired, CompressEvent.stopFired]).stops ∧
     (compressRun 10 compressInitState
      [CompressEvent.tick 0, CompressEvent.tick 5, CompressEvent.endedEvt,
       CompressEvent.timeoutFired, CompressEvent.stopFired]).stops ≤ 1) :=
  ⟨(c1_progress_discipline ⟨0, 10⟩
      [CutEvent.tick 0, CutEvent.tick 4, CutEvent.tick 10,
       CutEvent.stopFired] 10
      [CompressEvent.tick 0, CompressEvent.tick 5, CompressEvent.endedEvt,
       CompressEvent.timeoutFired, CompressEvent.stopFired]
      (by decide) (by decide) (by decide) (by decide)).2.2.1,
   (c1_progress_discipline ⟨0, 10⟩
      [CutEvent.tick 0, CutEvent.tick 4, CutEvent.tick 10,
       CutEvent.stopFired] 10
      [CompressEvent.tick 0, CompressEvent.tick 5, CompressEvent.endedEvt,
       CompressEvent.timeoutFired, CompressEvent.stopFired]
      (by decide) (by decide) (by decide) (by decide)).2.2.2.2.2.2.1⟩

end SmartClip
